import Mathlib

/-!
# LED cube controller and host I2C driver

Shallow embedding of

* `src/beaglebone/modules/i2c_mbed_ledcube_module/mbed_i2c_slave_ledcube.c`
  (the mbed controller: ping-pong frame buffers, refresh loop, I2C command decoding), and
* `src/beaglebone/modules/i2c_mbed_module/i2c_mbed_module.c`
  (the Linux character driver: session semaphore, page write, page read).

Bytes are natural numbers below 256; memory regions are lists of bytes.  The two
`unsigned int [5]` cube buffers are kept as their 20 bytes of memory, so that the
`memcpy` of the controller is a plain byte copy; an `unsigned int` is read back from
that memory in little-endian order (the byte order of the mbed's Cortex-M core).
-/

namespace LedCube

/-! ## Controller: constants -/

/-- `CUBE_LEVELS = 5`. -/
def CUBE_LEVELS : Nat := 5

/-- `DATA_SIZE = 32`: bits shifted out per level. -/
def DATA_SIZE : Nat := 32

/-- `DATA_BYTES = 20`: number of bytes of a full cube pattern. -/
def DATA_BYTES : Nat := 20

/-- `I2C_BUFFER_SIZE = 21`: command byte plus 4 bytes for each of the 5 levels. -/
def I2C_BUFFER_SIZE : Nat := 21

/-- `WRITE_CUBE = 0x00`, the only member of `enum I2C_COMMANDS`. -/
def WRITE_CUBE : Nat := 0x00

/-! ## Controller: memory helpers -/

/-- `memcpy(dst, src, n)`: the first `n` bytes of `dst` are replaced by those of `src`. -/
def memcpy (dst src : List Nat) (n : Nat) : List Nat :=
  src.take n ++ dst.drop n

/-- Read of element `i` of an `unsigned int` array stored in `mem` (little-endian). -/
def loadWord (mem : List Nat) (i : Nat) : Nat :=
  mem.getD (4 * i) 0 + 2 ^ 8 * mem.getD (4 * i + 1) 0
    + 2 ^ 16 * mem.getD (4 * i + 2) 0 + 2 ^ 24 * mem.getD (4 * i + 3) 0

/-- Memory image of one `unsigned int` (little-endian). -/
def wordBytes (w : Nat) : List Nat :=
  [w % 256, w / 2 ^ 8 % 256, w / 2 ^ 16 % 256, w / 2 ^ 24 % 256]

/-- Memory image of an `unsigned int` array initialiser. -/
def storeWords : List Nat → List Nat
  | [] => []
  | w :: ws => wordBytes w ++ storeWords ws

/-- The hardcoded test pattern both cube buffers are initialised with. -/
def testPattern : List Nat :=
  [0xF0000001, 0xE8000002, 0xD8000004, 0xB8000008, 0x78000010]

/-- `outputData(data)`: the values put on `din` at the 32 rising clock edges,
`(data >> i) & 1` for `i = 0 .. DATA_SIZE - 1`; the latch pulse follows. -/
def outputData (data : Nat) : List Nat :=
  (List.range DATA_SIZE).map fun i => (data >>> i) &&& 0x0000001

/-! ## Controller: state and events -/

/-- The two values the pointers `currentbuffer` and `otherbuffer` take. -/
inductive BufPtr
  | cubebuffer_0
  | cubebuffer_1
  deriving DecidableEq

/-- What one pass of the loop sees of the bus: the value of `slave.receive()`, and, in
the two addressed cases, the value `slave.read(buffer, I2C_BUFFER_SIZE)` returns
together with the bytes it leaves in `buffer`. -/
inductive I2CEvent
  | NoData
  | ReadAddressed (ret : Int) (data : List Nat)
  | WriteGeneral
  | WriteAddressed (ret : Int) (data : List Nat)
  deriving DecidableEq

/-- The variables of `main` that live across iterations, and the two indicator LEDs. -/
structure State where
  cubebuffer_0 : List Nat
  cubebuffer_1 : List Nat
  currentbuffer : BufPtr
  otherbuffer : BufPtr
  ilevel : Nat
  switchbuffers : Bool
  buffer : List Nat
  led_read : Bool
  led_write : Bool
  deriving DecidableEq

/-- Memory a buffer pointer designates. -/
def State.mem (s : State) : BufPtr → List Nat
  | .cubebuffer_0 => s.cubebuffer_0
  | .cubebuffer_1 => s.cubebuffer_1

/-- Store through a buffer pointer. -/
def State.setMem (s : State) (p : BufPtr) (m : List Nat) : State :=
  match p with
  | .cubebuffer_0 => { s with cubebuffer_0 := m }
  | .cubebuffer_1 => { s with cubebuffer_1 := m }

/-- State of `main` on entry to the loop; `buffer0` is the uninitialised content of the
local `buffer`. -/
def initState (buffer0 : List Nat) : State where
  cubebuffer_0 := storeWords testPattern
  cubebuffer_1 := storeWords testPattern
  currentbuffer := .cubebuffer_0
  otherbuffer := .cubebuffer_1
  ilevel := 0
  switchbuffers := false
  buffer := buffer0
  led_read := false
  led_write := false

/-- The `switch (i2cstatus)` statement of the loop body. -/
def dispatch (s : State) : I2CEvent → State
  | .WriteAddressed ret data =>
    let s1 := { s with buffer := data }
    if ret = 0 then
      let s2 := { s1 with led_write := !s1.led_write }
      if s2.buffer.getD 0 0 = WRITE_CUBE then
        { s2.setMem s2.otherbuffer
            (memcpy (s2.mem s2.otherbuffer) (s2.buffer.drop 1) DATA_BYTES) with
          switchbuffers := true }
      else s2
    else s1
  | .ReadAddressed ret data =>
    let s1 := { s with buffer := data }
    if ret = 0 then { s1 with led_read := !s1.led_read } else s1
  | _ => s

/-- The loop that clears the I2C buffer. -/
def clearBuffer (s : State) : State :=
  { s with buffer := List.replicate I2C_BUFFER_SIZE 0 }

/-- The statement `ilevel = (ilevel + 1) % CUBE_LEVELS`. -/
def advance (s : State) : State :=
  { s with ilevel := (s.ilevel + 1) % CUBE_LEVELS }

/-- The final `if (ilevel == 0 && switchbuffers)` block. -/
def switchBuffers (s : State) : State :=
  if s.ilevel = 0 ∧ s.switchbuffers = true then
    { s with currentbuffer := s.otherbuffer, otherbuffer := s.currentbuffer,
             switchbuffers := false }
  else s

/-- The argument of the `outputData` call that opens an iteration. -/
def emitMask (s : State) : Nat :=
  loadWord (s.mem s.currentbuffer) s.ilevel

/-- One pass of the `while(1)` body, after the output of the current level. -/
def step (s : State) (e : I2CEvent) : State :=
  switchBuffers (advance (clearBuffer (dispatch s e)))

/-- Successive passes of the loop, one event each. -/
def runLoop (s : State) : List I2CEvent → State
  | [] => s
  | e :: es => runLoop (step s e) es

/-- The masks handed to `outputData` by successive passes of the loop. -/
def emitted (s : State) : List I2CEvent → List Nat
  | [] => []
  | e :: es => emitMask s :: emitted (step s e) es

/-- The frame a buffer holds: its five level masks. -/
def frameOf (mem : List Nat) : List Nat :=
  (List.range CUBE_LEVELS).map (loadWord mem)

/-- The active frame: the five masks `currentbuffer` points at. -/
def State.active (s : State) : List Nat :=
  frameOf (s.mem s.currentbuffer)

/-- The staging frame: the five masks `otherbuffer` points at. -/
def State.staging (s : State) : List Nat :=
  frameOf (s.mem s.otherbuffer)

/-- An event whose `slave.read` filled the whole 21-byte buffer with bytes. -/
def I2CEvent.WellFormed : I2CEvent → Prop
  | .ReadAddressed _ data => data.length = I2C_BUFFER_SIZE ∧ ∀ b ∈ data, b < 256
  | .WriteAddressed _ data => data.length = I2C_BUFFER_SIZE ∧ ∀ b ∈ data, b < 256
  | _ => True

/-- The event is a successfully read frame whose command byte is `WRITE_CUBE`. -/
def I2CEvent.isWriteCube : I2CEvent → Bool
  | .WriteAddressed ret data => decide (ret = 0) && decide (data.getD 0 0 = WRITE_CUBE)
  | _ => false

/-- States the loop can be in at the top of an iteration. -/
inductive Reachable : State → Prop
  | init (buffer0 : List Nat) : Reachable (initState buffer0)
  | step (s : State) (e : I2CEvent) : Reachable s → e.WellFormed → Reachable (step s e)

/-- Five little-endian 32-bit words encoded by a byte string, four bytes at a time. -/
def decodeFrame : List Nat → List Nat
  | b0 :: b1 :: b2 :: b3 :: rest =>
    (b0 + b1 * 2 ^ 8 + b2 * 2 ^ 16 + b3 * 2 ^ 24) :: decodeFrame rest
  | _ => []

end LedCube

namespace MbedDriver

/-! ## Host driver: constants and state -/

/-- `MBED_PAGE_SIZE`. -/
def MBED_PAGE_SIZE : Nat := 32

/-- `MBED_BUFFER_SIZE`: one byte for the command and one for the page address. -/
def MBED_BUFFER_SIZE : Nat := 34

/-- The globals the file operations work on: `char buffer[MBED_BUFFER_SIZE]` and `int ret`. -/
structure Driver where
  buffer : List Nat
  ret : Int
  deriving DecidableEq

/-- A transaction issued on the bus through `i2cclient`. -/
inductive BusOp
  | send (bytes : List Nat)
  | recv (count : Nat)
  deriving DecidableEq

/-- What a file operation leaves behind: the globals, the caller's memory, the bus
transactions it issued (in order) and the value it returns. -/
structure Outcome where
  driver : Driver
  user : List Nat
  bus : List BusOp
  result : Int
  deriving DecidableEq

/-! ## Host driver: kernel primitives

The user-copy routines and the semaphore are kernel primitives; they are embedded by
their documented contracts.  A user buffer is the list of bytes accessible at the user
address: a copy of `n` bytes faults after `min n length` bytes. -/

/-- `copy_from_user(dst, src, n)`: copies the accessible bytes, zero-fills what could not be
copied, and returns the number of bytes that could not be copied. -/
def copy_from_user (dst src : List Nat) (n : Nat) : List Nat × Nat :=
  let k := min n src.length
  (src.take k ++ List.replicate (n - k) 0 ++ dst.drop n, n - k)

/-- `copy_to_user(dst, src, n)`: copies the bytes the user buffer can take and returns the
number of bytes that could not be copied. -/
def copy_to_user (dst src : List Nat) (n : Nat) : List Nat × Nat :=
  let k := min n dst.length
  (src.take k ++ dst.drop k, n - k)

/-- A kernel semaphore: its count and the tasks sleeping on it, oldest first. -/
structure Semaphore where
  count : Nat
  wait_list : List Nat
  deriving DecidableEq

/-- `sema_init(&sem, val)`. -/
def sema_init (val : Nat) : Semaphore := ⟨val, []⟩

/-- `down_interruptible(&sem)` called by `task`: with a positive count the count is taken
and the call returns 0 at once; otherwise the task is put on the wait list and sleeps, and
the call has not returned (`none`). -/
def down_interruptible (sem : Semaphore) (task : Nat) : Semaphore × Option Int :=
  if 0 < sem.count then ({ sem with count := sem.count - 1 }, some 0)
  else ({ sem with wait_list := sem.wait_list ++ [task] }, none)

/-- A signal reaches `task` while it sleeps in `down_interruptible`: it leaves the wait list
and its call returns `-EINTR`. -/
def interrupt (sem : Semaphore) (task : Nat) : Semaphore × Option Int :=
  if task ∈ sem.wait_list then ({ sem with wait_list := sem.wait_list.erase task }, some (-4))
  else (sem, none)

/-- `up(&sem)`: with nobody waiting the count is incremented; otherwise the oldest sleeper
is handed the semaphore, and its `down_interruptible` returns 0 (the woken task is the
second component). -/
def up (sem : Semaphore) : Semaphore × Option Nat :=
  match sem.wait_list with
  | [] => ({ sem with count := sem.count + 1 }, none)
  | t :: ts => ({ sem with wait_list := ts }, some t)

/-! ## Host driver: file operations -/

/-- The part of `device_open` that follows the return of `down_interruptible`. -/
def device_open_after (down : Int) : Int :=
  if down ≠ 0 then -1 else 0

/-- `device_open` called by `task`: the value returned, or `none` while the task sleeps in
`down_interruptible`. -/
def device_open (sem : Semaphore) (task : Nat) : Semaphore × Option Int :=
  let r := down_interruptible sem task
  (r.1, r.2.map device_open_after)

/-- `device_open` of a sleeping `task` resumed by a signal. -/
def device_open_interrupted (sem : Semaphore) (task : Nat) : Semaphore × Option Int :=
  let r := interrupt sem task
  (r.1, r.2.map device_open_after)

/-- `device_close`: releases the semaphore and returns 0; the second component is the
sleeping task, if any, whose `device_open` now returns `device_open_after 0`. -/
def device_close (sem : Semaphore) : Semaphore × Option Nat × Int :=
  let r := up sem
  (r.1, r.2, 0)

/-- The loop `for (i = buffCount+2; i < MBED_BUFFER_SIZE; i++) buffer[i] = 0`. -/
def clearRemaining (buffer : List Nat) (buffCount : Nat) : List Nat :=
  (List.range' (buffCount + 2) (MBED_BUFFER_SIZE - (buffCount + 2))).foldl
    (fun b i => b.set i 0) buffer

/-- `device_write(filep, buffSourceData, buffCount, currOffset)`.  `user` is the memory
accessible at `buffSourceData`; `sendRet` is what `i2c_master_send` returns if it is called. -/
def device_write (d : Driver) (user : List Nat) (buffCount : Nat) (sendRet : Int) : Outcome :=
  if buffCount > MBED_PAGE_SIZE then
    { driver := d, user := user, bus := [], result := -1 }
  else
    let c := copy_from_user (d.buffer.drop 2) user buffCount
    let b1 := d.buffer.take 2 ++ c.1
    if (c.2 : Int) ≠ 0 then
      { driver := { buffer := b1, ret := c.2 }, user := user, bus := [], result := -1 }
    else
      let b2 := clearRemaining b1 buffCount
      let b3 := (b2.set 0 0x01).set 1 0
      -- `if (ret != MBED_BUFFER_SIZE)` only logs; `return ret` follows in both cases
      { driver := { buffer := b3, ret := sendRet }, user := user,
        bus := [.send (b3.take MBED_BUFFER_SIZE)], result := sendRet }

/-- `i2c_master_recv(client, buffer, count)` storing the bytes `rx` it got from the bus. -/
def i2c_master_recv (buffer rx : List Nat) (count : Nat) : List Nat :=
  rx.take count ++ buffer.drop (rx.take count).length

/-- `device_read(filep, buffStoreData, buffCount, curOffset)`.  `user` is the memory
accessible at `buffStoreData`; `sendRet` and `recvRet` are what `i2c_master_send` and
`i2c_master_recv` return if they are called, `rx` the bytes the receive stores. -/
def device_read (d : Driver) (user : List Nat) (buffCount : Nat)
    (sendRet recvRet : Int) (rx : List Nat) : Outcome :=
  if buffCount > MBED_PAGE_SIZE then
    { driver := d, user := user, bus := [], result := -1 }
  else
    let b1 := (d.buffer.set 0 0x00).set 1 0
    if sendRet ≠ 2 then
      { driver := { buffer := b1, ret := sendRet }, user := user,
        bus := [.send (b1.take 2)], result := -1 }
    else
      let b2 := i2c_master_recv b1 rx MBED_PAGE_SIZE
      if recvRet ≠ MBED_PAGE_SIZE then
        { driver := { buffer := b2, ret := recvRet }, user := user,
          bus := [.send (b1.take 2), .recv MBED_PAGE_SIZE], result := -1 }
      else
        let c := copy_to_user user b2 buffCount
        { driver := { buffer := b2, ret := c.2 }, user := c.1,
          bus := [.send (b1.take 2), .recv MBED_PAGE_SIZE], result := c.2 }

/-- The buffer `device_write` hands to `i2c_master_send`, if it gets that far. -/
def sentBuffer (o : Outcome) : Option (List Nat) :=
  match o.bus with
  | [.send bytes] => some bytes
  | _ => none

end MbedDriver

namespace LedCube

/-- A host message taken off the bus by a successful `slave.read(buffer, I2C_BUFFER_SIZE)`
after `WriteAddressed`: the first `I2C_BUFFER_SIZE` bytes land in `buffer`. -/
def deliver (msg : List Nat) : I2CEvent :=
  .WriteAddressed 0 (msg.take I2C_BUFFER_SIZE)

end LedCube

namespace LedCube

/-- What holds of the loop variables at the top of every iteration: both cube buffers
occupy `DATA_BYTES` bytes, the two pointers designate different buffers, and `ilevel` is a
level of the cube. -/
def Inv (s : State) : Prop :=
  s.cubebuffer_0.length = DATA_BYTES ∧ s.cubebuffer_1.length = DATA_BYTES ∧
    s.currentbuffer ≠ s.otherbuffer ∧ s.ilevel < CUBE_LEVELS

end LedCube

/-! ## Sample data -/

namespace Sample

open LedCube MbedDriver

/-- The driver globals as the module is loaded: static storage is zero-initialised. -/
def freshDriver : Driver := ⟨List.replicate 34 0, 0⟩

/-- Driver globals holding the bytes of an earlier transfer. -/
def usedDriver : Driver := ⟨List.replicate 34 0xAA, 34⟩

/-- The all-zero 20-byte pattern. -/
def zeroPattern : List Nat := List.replicate 20 0

/-- A 20-byte pattern: bytes 1 to 20. -/
def countPattern : List Nat := (List.range 20).map (· + 1)

/-- A 32-byte page as received from the bus: bytes 0 to 31. -/
def page : List Nat := List.range 32

/-- A 32-byte user buffer filled with `0xEE`. -/
def userPage : List Nat := List.replicate 32 0xEE

/-- Four iterations without bus activity. -/
def idle4 : List I2CEvent := [.NoData, .NoData, .NoData, .NoData]

/-- The controller two iterations after start, at level 2. -/
def atLevel2 : State := step (step (initState []) .NoData) .NoData

end Sample

namespace LedCube

/-! ## Controller: lemmas -/

theorem length_storeWords (ws : List Nat) : (storeWords ws).length = 4 * ws.length := by
  induction ws with
  | nil => rfl
  | cons w ws ih => simp [storeWords, wordBytes, ih]; omega

theorem inv_initState (buffer0 : List Nat) : Inv (initState buffer0) := by
  refine ⟨?_, ?_, ?_, ?_⟩
  · simp [initState, length_storeWords, testPattern, DATA_BYTES]
  · simp [initState, length_storeWords, testPattern, DATA_BYTES]
  · simp [initState]
  · simp [initState, CUBE_LEVELS]

theorem dispatch_pointers (s : State) (e : I2CEvent) :
    (dispatch s e).currentbuffer = s.currentbuffer ∧
      (dispatch s e).otherbuffer = s.otherbuffer ∧ (dispatch s e).ilevel = s.ilevel := by
  cases e <;> simp only [dispatch] <;> (try split_ifs) <;>
    (try cases s.otherbuffer) <;> simp [State.setMem]

theorem dispatch_keeps_current (s : State) (e : I2CEvent) (h : s.currentbuffer ≠ s.otherbuffer) :
    (dispatch s e).mem s.currentbuffer = s.mem s.currentbuffer := by
  cases e <;> simp only [dispatch] <;> (try split_ifs) <;>
    cases hc : s.currentbuffer <;> cases ho : s.otherbuffer <;>
    simp_all [State.setMem, State.mem]

theorem dispatch_not_writeCube (s : State) (e : I2CEvent) (h : e.isWriteCube = false) :
    (dispatch s e).cubebuffer_0 = s.cubebuffer_0 ∧
      (dispatch s e).cubebuffer_1 = s.cubebuffer_1 ∧
      (dispatch s e).switchbuffers = s.switchbuffers := by
  cases e <;> simp only [dispatch] <;> (try split_ifs) <;>
    simp_all [I2CEvent.isWriteCube]

theorem memcpy_payload (dst P : List Nat) (hd : dst.length = DATA_BYTES)
    (hP : P.length = DATA_BYTES) :
    memcpy dst P DATA_BYTES = P := by
  simp [memcpy, ← hP, hd]

theorem dispatch_writeCube (s : State) (P : List Nat) (hs : Inv s) (hP : P.length = DATA_BYTES) :
    (dispatch s (.WriteAddressed 0 (WRITE_CUBE :: P))).mem s.otherbuffer = P ∧
      (dispatch s (.WriteAddressed 0 (WRITE_CUBE :: P))).switchbuffers = true := by
  obtain ⟨h0, h1, _, _⟩ := hs
  cases ho : s.otherbuffer <;>
    simp [dispatch, State.setMem, State.mem, ho, memcpy_payload, h0, h1, hP]

theorem inv_dispatch (s : State) (e : I2CEvent) (hs : Inv s) (he : e.WellFormed) :
    Inv (dispatch s e) := by
  obtain ⟨h0, h1, hd, hl⟩ := hs
  cases e with
  | NoData => exact ⟨h0, h1, hd, hl⟩
  | WriteGeneral => exact ⟨h0, h1, hd, hl⟩
  | ReadAddressed ret data =>
    simp only [dispatch]; split_ifs <;> exact ⟨h0, h1, hd, hl⟩
  | WriteAddressed ret data =>
    have hlen : data.length = 21 := he.1
    simp only [dispatch]
    split_ifs
    · cases ho : s.otherbuffer <;>
        simp_all [Inv, State.setMem, State.mem, memcpy, DATA_BYTES]
    · exact ⟨h0, h1, hd, hl⟩
    · exact ⟨h0, h1, hd, hl⟩

theorem step_ilevel (s : State) (e : I2CEvent) :
    (step s e).ilevel = (s.ilevel + 1) % CUBE_LEVELS := by
  have h := (dispatch_pointers s e).2.2
  simp only [step, switchBuffers, advance, clearBuffer]
  split_ifs <;> simp [h]

theorem step_no_wrap (s : State) (e : I2CEvent) (h : (s.ilevel + 1) % CUBE_LEVELS ≠ 0) :
    step s e = advance (clearBuffer (dispatch s e)) := by
  have hl := (dispatch_pointers s e).2.2
  simp only [step, switchBuffers]
  rw [if_neg]
  simp [advance, clearBuffer, hl, h]

theorem inv_step (s : State) (e : I2CEvent) (hs : Inv s) (he : e.WellFormed) :
    Inv (step s e) := by
  obtain ⟨h0, h1, hd, _⟩ := inv_dispatch s e hs he
  simp only [step, switchBuffers, advance, clearBuffer]
  split_ifs
  · exact ⟨h0, h1, fun h => hd h.symm, by simp_all [CUBE_LEVELS]⟩
  · exact ⟨h0, h1, hd, Nat.mod_lt _ (by decide)⟩

theorem inv_of_reachable (s : State) (h : Reachable s) : Inv s := by
  induction h with
  | init b => exact inv_initState b
  | step s e _ he ih => exact inv_step s e ih he

end LedCube

namespace LedCube

theorem mem_advance_clearBuffer (s : State) (p : BufPtr) :
    (advance (clearBuffer s)).mem p = s.mem p := by
  cases p <;> rfl

theorem step_wrap (s : State) (e : I2CEvent) (hl : s.ilevel = 4)
    (hsw : (dispatch s e).switchbuffers = true) :
    (step s e).currentbuffer = s.otherbuffer ∧ (step s e).ilevel = 0 ∧
      ∀ p, (step s e).mem p = (dispatch s e).mem p := by
  obtain ⟨_, ho, hi⟩ := dispatch_pointers s e
  simp only [step, switchBuffers]
  rw [if_pos]
  · refine ⟨by simp [advance, clearBuffer, ho], by simp [advance, clearBuffer, hi, hl, CUBE_LEVELS],
      fun p => ?_⟩
    cases p <;> rfl
  · simp [advance, clearBuffer, hi, hl, hsw, CUBE_LEVELS]

theorem step_keeps_active (s : State) (e : I2CEvent) (hs : s.currentbuffer ≠ s.otherbuffer)
    (h : (step s e).ilevel ≠ 0) :
    (step s e).currentbuffer = s.currentbuffer ∧
      (step s e).mem (step s e).currentbuffer = s.mem s.currentbuffer := by
  rw [step_ilevel] at h
  rw [step_no_wrap s e h]
  have hc : (advance (clearBuffer (dispatch s e))).currentbuffer = s.currentbuffer :=
    (dispatch_pointers s e).1
  rw [hc, mem_advance_clearBuffer]
  exact ⟨rfl, dispatch_keeps_current s e hs⟩

theorem runLoop_keeps_active (es : List I2CEvent) :
    ∀ s : State, Inv s → (∀ e ∈ es, e.WellFormed) → s.ilevel + es.length ≤ 4 →
      (runLoop s es).mem (runLoop s es).currentbuffer = s.mem s.currentbuffer := by
  induction es with
  | nil => intro s _ _ _; rfl
  | cons e es ih =>
    intro s hs hwf hlen
    simp only [List.length_cons] at hlen
    have hi : (step s e).ilevel = s.ilevel + 1 := by
      rw [step_ilevel, CUBE_LEVELS]; omega
    have hk := step_keeps_active s e hs.2.2.1 (by omega)
    simp only [runLoop]
    rw [ih (step s e) (inv_step s e hs (hwf e (by simp))) (fun x hx => hwf x (by simp [hx]))
      (by omega)]
    exact hk.2

theorem runLoop_pending (P : List Nat) (es : List I2CEvent) :
    ∀ s : State, Inv s → (∀ e ∈ es, e.WellFormed) → s.switchbuffers = true →
      s.mem s.otherbuffer = P →
      (∀ e ∈ es.take (5 - s.ilevel), e.isWriteCube = false) →
      5 - s.ilevel ≤ es.length → es.length ≤ 9 - s.ilevel →
      (runLoop s es).mem (runLoop s es).currentbuffer = P := by
  induction es with
  | nil =>
    intro s hs _ _ _ _ h _
    have := hs.2.2.2
    simp [CUBE_LEVELS] at this h
    omega
  | cons e es ih =>
    intro s hs hwf hsw hP hno hge hle
    have hlt : s.ilevel < 5 := hs.2.2.2
    simp only [List.length_cons] at hge hle
    obtain ⟨k, hk⟩ : ∃ k, 5 - s.ilevel = k + 1 := ⟨4 - s.ilevel, by omega⟩
    rw [hk, List.take_succ_cons] at hno
    have he : e.isWriteCube = false := hno e (by simp)
    obtain ⟨d0, d1, dsw⟩ := dispatch_not_writeCube s e he
    have hmem : ∀ p, (dispatch s e).mem p = s.mem p := by
      intro p; cases p <;> simp [State.mem, d0, d1]
    have hinv := inv_step s e hs (hwf e (by simp))
    have hwf' : ∀ x ∈ es, x.WellFormed := fun x hx => hwf x (by simp [hx])
    simp only [runLoop]
    by_cases h4 : s.ilevel = 4
    · obtain ⟨hc, hi, hm⟩ := step_wrap s e h4 (by rw [dsw, hsw])
      rw [runLoop_keeps_active es (step s e) hinv hwf' (by omega), hc, hm, hmem, hP]
    · have hnw : (s.ilevel + 1) % CUBE_LEVELS ≠ 0 := by rw [CUBE_LEVELS]; omega
      have hst := step_no_wrap s e hnw
      have hi : (step s e).ilevel = s.ilevel + 1 := by
        rw [step_ilevel, CUBE_LEVELS]; omega
      apply ih (step s e) hinv hwf'
      · rw [hst]; exact dsw.trans hsw
      · rw [hst, mem_advance_clearBuffer]
        have ho : (advance (clearBuffer (dispatch s e))).otherbuffer = s.otherbuffer :=
          (dispatch_pointers s e).2.1
        rw [ho, hmem, hP]
      · intro x hx
        apply hno x
        have : 5 - (step s e).ilevel = k := by omega
        rw [this] at hx
        simp [hx]
      · omega
      · omega

theorem frameOf_eq_decodeFrame (P : List Nat) (hP : P.length = DATA_BYTES) :
    frameOf P = decodeFrame P := by
  match P, hP with
  | [a0, a1, a2, a3, a4, a5, a6, a7, a8, a9, a10, a11, a12, a13, a14, a15, a16, a17, a18, a19],
    _ =>
    simp [frameOf, decodeFrame, loadWord, CUBE_LEVELS, List.range_succ, Nat.mul_comm]

/-- C1.  From every reachable state of the controller loop and for every 20-byte payload
`P`: if an iteration receives a successfully read `WriteAddressed` frame whose byte 0 is
`WRITE_CUBE` and whose bytes 1..20 are `P`, and none of the following iterations up to the
buffer switch receives another `WRITE_CUBE` frame, then after the five iterations that
start with that one the active frame is the five little-endian 32-bit words encoded by
`P`. -/
theorem writeCube_active_after_cycle (s : State) (hs : Reachable s) (P : List Nat)
    (hP : P.length = DATA_BYTES) (hb : ∀ b ∈ P, b < 256)
    (es : List I2CEvent) (hlen : es.length = 4) (hwf : ∀ e ∈ es, e.WellFormed)
    (hno : ∀ e ∈ es.take (4 - s.ilevel), e.isWriteCube = false) :
    (runLoop s (.WriteAddressed 0 (WRITE_CUBE :: P) :: es)).active = decodeFrame P := by
  have hinv := inv_of_reachable s hs
  have hlt : s.ilevel < 5 := hinv.2.2.2
  have hwf0 : (I2CEvent.WriteAddressed 0 (WRITE_CUBE :: P)).WellFormed := by
    refine ⟨by simp [hP, DATA_BYTES, I2C_BUFFER_SIZE], ?_⟩
    intro b hb'
    rcases List.mem_cons.1 hb' with h | h
    · rw [h, WRITE_CUBE]; decide
    · exact hb b h
  have hinv1 := inv_step s _ hinv hwf0
  obtain ⟨hm, hsw⟩ := dispatch_writeCube s P hinv hP
  rw [State.active, ← frameOf_eq_decodeFrame P hP]
  congr 1
  simp only [runLoop]
  by_cases h4 : s.ilevel = 4
  · obtain ⟨hc, hi, hmm⟩ := step_wrap s _ h4 hsw
    rw [runLoop_keeps_active es _ hinv1 hwf (by omega), hc, hmm, hm]
  · have hnw : (s.ilevel + 1) % CUBE_LEVELS ≠ 0 := by rw [CUBE_LEVELS]; omega
    have hst := step_no_wrap s (.WriteAddressed 0 (WRITE_CUBE :: P)) hnw
    have hi : (step s (.WriteAddressed 0 (WRITE_CUBE :: P))).ilevel = s.ilevel + 1 := by
      rw [step_ilevel, CUBE_LEVELS]; omega
    apply runLoop_pending P es _ hinv1 hwf
    · rw [hst]; exact hsw
    · rw [hst, mem_advance_clearBuffer]
      have ho : (advance (clearBuffer (dispatch s (.WriteAddressed 0 (WRITE_CUBE :: P))))).otherbuffer
          = s.otherbuffer := (dispatch_pointers s _).2.1
      rw [ho, hm]
    · intro x hx
      apply hno x
      have : 5 - (step s (.WriteAddressed 0 (WRITE_CUBE :: P))).ilevel = 4 - s.ilevel := by omega
      rw [this] at hx
      exact hx
    · omega
    · omega

end LedCube

namespace LedCube

theorem step_distinct (s : State) (e : I2CEvent) (hs : s.currentbuffer ≠ s.otherbuffer) :
    (step s e).currentbuffer ≠ (step s e).otherbuffer := by
  obtain ⟨hc, ho, _⟩ := dispatch_pointers s e
  simp only [step, switchBuffers]
  split_ifs
  · simpa [advance, clearBuffer, hc, ho] using fun h => hs h.symm
  · simpa [advance, clearBuffer, hc, ho] using hs

theorem emitted_within_cycle (es : List I2CEvent) :
    ∀ s : State, s.currentbuffer ≠ s.otherbuffer → s.ilevel + es.length ≤ 5 →
      emitted s es = (List.range' s.ilevel es.length).map (loadWord (s.mem s.currentbuffer)) := by
  induction es with
  | nil => intro s _ _; rfl
  | cons e es ih =>
    intro s hs hlen
    simp only [List.length_cons] at hlen
    simp only [emitted, List.length_cons, List.range'_succ, List.map_cons, emitMask]
    congr 1
    cases es with
    | nil => rfl
    | cons e' es' =>
      simp only [List.length_cons] at hlen
      have hi : (step s e).ilevel = s.ilevel + 1 := by
        rw [step_ilevel, CUBE_LEVELS]; omega
      have hk := step_keeps_active s e hs (by omega)
      rw [ih (step s e) (step_distinct s e hs) (by simp only [List.length_cons]; omega),
        hk.2, hi]

theorem runLoop_quiet (es : List I2CEvent) :
    ∀ s : State, s.switchbuffers = false → (∀ e ∈ es, e.isWriteCube = false) →
      (runLoop s es).currentbuffer = s.currentbuffer ∧
        (runLoop s es).mem s.currentbuffer = s.mem s.currentbuffer := by
  induction es with
  | nil => intro s _ _; exact ⟨rfl, rfl⟩
  | cons e es ih =>
    intro s hsw hno
    obtain ⟨d0, d1, dsw⟩ := dispatch_not_writeCube s e (hno e (by simp))
    obtain ⟨hc, _, _⟩ := dispatch_pointers s e
    have hst : step s e = advance (clearBuffer (dispatch s e)) := by
      simp only [step, switchBuffers]
      rw [if_neg]
      simp [advance, clearBuffer, dsw, hsw]
    have hsw' : (step s e).switchbuffers = false := by rw [hst]; exact dsw.trans hsw
    have hc' : (step s e).currentbuffer = s.currentbuffer := by rw [hst]; exact hc
    have hm : (step s e).mem s.currentbuffer = s.mem s.currentbuffer := by
      rw [hst, mem_advance_clearBuffer]
      cases s.currentbuffer <;> simp [State.mem, d0, d1]
    obtain ⟨i1, i2⟩ := ih (step s e) hsw' (fun x hx => hno x (by simp [hx]))
    simp only [runLoop]
    rw [hc'] at i1 i2
    exact ⟨i1, i2.trans hm⟩

/-- C2.  In every reachable state and for every I2C event, an iteration that ends with
`ilevel ≠ 0` leaves the active frame alone: `currentbuffer` designates the same buffer,
whose bytes, and so whose five level masks, are what they were.  Consequently, whatever
the five events of a cycle that starts at level 0 are, the five masks handed to
`outputData` during that cycle are the five levels of the frame active at its start. -/
theorem active_frame_not_torn (s : State) (hs : Reachable s) (e : I2CEvent) :
    ((step s e).ilevel ≠ 0 →
      (step s e).currentbuffer = s.currentbuffer ∧
        (step s e).mem (step s e).currentbuffer = s.mem s.currentbuffer ∧
        (step s e).active = s.active) ∧
    (s.ilevel = 0 → ∀ e1 e2 e3 e4 : I2CEvent,
      emitted s [e, e1, e2, e3, e4] = s.active ∧
        (emitted s [e, e1, e2, e3, e4]).map outputData = s.active.map outputData) := by
  have hd := (inv_of_reachable s hs).2.2.1
  constructor
  · intro h
    obtain ⟨h1, h2⟩ := step_keeps_active s e hd h
    exact ⟨h1, h2, by rw [State.active, h2, State.active]⟩
  · intro h0 e1 e2 e3 e4
    have h := emitted_within_cycle [e, e1, e2, e3, e4] s hd (by rw [h0]; simp)
    have hr : emitted s [e, e1, e2, e3, e4] = s.active := by
      rw [h, h0, State.active, frameOf, List.range_eq_range']; rfl
    exact ⟨hr, by rw [hr]⟩

/-- C10.  In every state of the controller loop, the dispatch of an event that is not a
successfully read `WRITE_CUBE` frame (a frame with another command byte, a frame whose bus
read failed, a read request, a general-call write, or no event) leaves the frame store as
it was: both pointers, the bytes of both cube buffers, hence the active and the staging
frame, and `switchbuffers`. -/
theorem dispatch_other_event_keeps_frames (s : State) (e : I2CEvent)
    (h : e.isWriteCube = false) :
    (dispatch s e).currentbuffer = s.currentbuffer ∧
      (dispatch s e).otherbuffer = s.otherbuffer ∧
      (dispatch s e).cubebuffer_0 = s.cubebuffer_0 ∧
      (dispatch s e).cubebuffer_1 = s.cubebuffer_1 ∧
      (dispatch s e).active = s.active ∧
      (dispatch s e).staging = s.staging ∧
      (dispatch s e).switchbuffers = s.switchbuffers := by
  obtain ⟨d0, d1, dsw⟩ := dispatch_not_writeCube s e h
  obtain ⟨hc, ho, _⟩ := dispatch_pointers s e
  have hmem : ∀ p, (dispatch s e).mem p = s.mem p := by
    intro p; cases p <;> simp [State.mem, d0, d1]
  exact ⟨hc, ho, d0, d1, by rw [State.active, hc, hmem, State.active],
    by rw [State.staging, ho, hmem, State.staging], dsw⟩

end LedCube

namespace MbedDriver

/-! ## Host driver: lemmas -/

theorem foldl_clear_length (l : List Nat) :
    ∀ b : List Nat, (l.foldl (fun b i => b.set i 0) b).length = b.length := by
  induction l with
  | nil => intro b; rfl
  | cons i l ih => intro b; simp [ih]

theorem foldl_clear_getElem? (len : Nat) :
    ∀ (start : Nat) (b : List Nat) (j : Nat),
      ((List.range' start len).foldl (fun b i => b.set i 0) b)[j]? =
        if start ≤ j ∧ j < start + len ∧ j < b.length then some 0 else b[j]? := by
  induction len with
  | zero =>
    intro start b j
    rw [if_neg (by omega)]
    rfl
  | succ n ih =>
    intro start b j
    rw [List.range'_succ, List.foldl_cons, ih, List.length_set, List.getElem?_set]
    by_cases h1 : start = j
    · subst h1
      by_cases h2 : start < b.length
      · simp [h2]
      · simp [h2]; omega
    · by_cases h3 : j < b.length
      · simp only [h1, if_false, h3, and_true]
        congr 1
        apply propext
        constructor <;> intro h <;> omega
      · have : b[j]? = none := by simp; omega
        simp [h1, h3, this]

theorem clearRemaining_eq (b : List Nat) (n : Nat) (hb : b.length = MBED_BUFFER_SIZE)
    (hn : n ≤ MBED_PAGE_SIZE) :
    clearRemaining b n = b.take (n + 2) ++ List.replicate (MBED_PAGE_SIZE - n) 0 := by
  simp only [MBED_BUFFER_SIZE, MBED_PAGE_SIZE] at hb hn ⊢
  apply List.ext_getElem?
  intro j
  rw [clearRemaining, foldl_clear_getElem?]
  simp only [MBED_BUFFER_SIZE, hb]
  by_cases h1 : j < n + 2
  · rw [if_neg (by omega), List.getElem?_append_left (by simp [hb]; omega),
      List.getElem?_take_of_lt h1]
  · rw [List.getElem?_append_right (by simp [hb]; omega)]
    simp only [List.length_take, hb, List.getElem?_replicate]
    by_cases h2 : j < 34
    · rw [if_pos (by omega), if_pos (by omega)]
    · rw [if_neg (by omega), if_neg (by omega)]
      simp [hb]; omega

theorem device_write_sent (d : Driver) (user : List Nat) (n : Nat) (sendRet : Int)
    (hd : d.buffer.length = MBED_BUFFER_SIZE) (hn : n ≤ MBED_PAGE_SIZE)
    (hcopy : (copy_from_user (d.buffer.drop 2) user n).2 = 0) :
    (device_write d user n sendRet).bus =
      [.send (0x01 :: 0x00 :: (user.take n ++ List.replicate (MBED_PAGE_SIZE - n) 0))] := by
  have hle : n ≤ user.length := by
    simp only [copy_from_user] at hcopy; omega
  have hmin : min n user.length = n := by omega
  match hbuf : d.buffer, hd with
  | x0 :: x1 :: rest, hd =>
    have hrest : rest.length = 32 := by simpa [MBED_BUFFER_SIZE] using hd
    have hlen : ([x0, x1] ++ (user.take n ++ rest.drop n)).length = MBED_BUFFER_SIZE := by
      simp [MBED_BUFFER_SIZE, MBED_PAGE_SIZE] at hn ⊢; omega
    have htake : ([x0, x1] ++ (user.take n ++ rest.drop n)).take (n + 2)
        = x0 :: x1 :: user.take n := by
      simp [List.take_append_eq_append_take, hmin]
    simp only [device_write]
    rw [if_neg (by omega), if_neg]
    · have hb1 : d.buffer.take 2 ++ (copy_from_user (d.buffer.drop 2) user n).1
          = [x0, x1] ++ (user.take n ++ rest.drop n) := by
        simp [copy_from_user, hbuf, hmin]
      simp only [hb1, clearRemaining_eq _ n hlen hn, htake]
      simp [MBED_BUFFER_SIZE, MBED_PAGE_SIZE] at hn ⊢
      omega
    · simp [hcopy]

end MbedDriver

namespace MbedDriver

/-- C4.  For every call `device_write(data, n)` with `n ≤ 32` whose copy from user memory
succeeds, and whatever the 34-byte transfer buffer held before, exactly one buffer is
handed to `i2c_master_send`; it is 34 bytes long, byte 0 is `0x01`, byte 1 is `0x00`,
bytes `2 .. 2+n-1` are `data[0 .. n-1]`, and every byte from offset `2+n` to offset 33
is 0. -/
theorem device_write_transfer_buffer (d : Driver) (user : List Nat) (n : Nat) (sendRet : Int)
    (hd : d.buffer.length = MBED_BUFFER_SIZE) (hn : n ≤ MBED_PAGE_SIZE)
    (hcopy : (copy_from_user (d.buffer.drop 2) user n).2 = 0) :
    ∃ buf : List Nat, (device_write d user n sendRet).bus = [.send buf] ∧
      buf.length = 34 ∧ buf[0]? = some 0x01 ∧ buf[1]? = some 0x00 ∧
      (∀ i, i < n → buf[2 + i]? = user[i]? ∧ i < user.length) ∧
      (∀ i, 2 + n ≤ i → i < 34 → buf[i]? = some 0) := by
  have hle : n ≤ user.length := by
    simp only [copy_from_user] at hcopy; omega
  simp only [MBED_PAGE_SIZE] at hn
  refine ⟨_, device_write_sent d user n sendRet hd hn hcopy, ?_, by simp, by simp, ?_, ?_⟩
  · simp [MBED_PAGE_SIZE]; omega
  · intro i hi
    refine ⟨?_, by omega⟩
    rw [show 2 + i = i + 1 + 1 by omega, List.getElem?_cons_succ, List.getElem?_cons_succ,
      List.getElem?_append_left (by simp; omega), List.getElem?_take_of_lt hi]
  · intro i h1 h2
    obtain ⟨k, rfl⟩ : ∃ k, i = k + 1 + 1 := ⟨i - 2, by omega⟩
    rw [List.getElem?_cons_succ, List.getElem?_cons_succ,
      List.getElem?_append_right (by simp; omega)]
    simp [MBED_PAGE_SIZE, List.getElem?_replicate]
    omega

/-- C7.  For every call `device_write(data, n)` with `n > 32` the result is `-1`, nothing
is sent on the bus, and the driver globals (the transfer buffer among them) and the
caller's memory are untouched. -/
theorem device_write_too_big (d : Driver) (user : List Nat) (n : Nat) (sendRet : Int)
    (h : n > MBED_PAGE_SIZE) :
    (device_write d user n sendRet).result = -1 ∧ (device_write d user n sendRet).bus = [] ∧
      (device_write d user n sendRet).driver = d ∧
      (device_write d user n sendRet).driver.buffer = d.buffer := by
  simp [device_write, h]

/-- C8.  For every `n ≤ 32`, if the address send reports a count other than 2, or the
receive reports a count other than 32, `device_read` returns `-1` and the caller's output
buffer is left as it was; when it is the send that failed, no receive is issued. -/
theorem device_read_short_transfer (d : Driver) (user : List Nat) (n : Nat)
    (sendRet recvRet : Int) (rx : List Nat) (hn : n ≤ MBED_PAGE_SIZE)
    (h : sendRet ≠ 2 ∨ recvRet ≠ MBED_PAGE_SIZE) :
    (device_read d user n sendRet recvRet rx).result = -1 ∧
      (device_read d user n sendRet recvRet rx).user = user ∧
      (sendRet ≠ 2 → ∀ c, BusOp.recv c ∉ (device_read d user n sendRet recvRet rx).bus) := by
  have hn' : ¬ n > MBED_PAGE_SIZE := by omega
  by_cases hs : sendRet = 2
  · have hr : recvRet ≠ MBED_PAGE_SIZE := h.resolve_left (fun h => h hs)
    simp [device_read, hn', hs, hr]
  · simp [device_read, hn', hs]

/-- C5, at the failing input.  `device_write` of 20 bytes whose `i2c_master_send` reports 0
bytes accepted makes one send attempt and returns 0, which is not negative. -/
theorem device_write_short_send_result :
    (device_write Sample.freshDriver Sample.countPattern 20 0).result = 0 ∧
      ¬ (device_write Sample.freshDriver Sample.countPattern 20 0).result < 0 ∧
      (device_write Sample.freshDriver Sample.countPattern 20 0).bus.length = 1 := by
  decide

/-- C6, at the failing input.  `device_read` of 32 bytes with both transfers and the user
copy succeeding stores the 32 received bytes in the caller's buffer and returns 0, not
32. -/
theorem device_read_success_result :
    (device_read Sample.freshDriver Sample.userPage 32 2 32 Sample.page).user = Sample.page ∧
      (device_read Sample.freshDriver Sample.userPage 32 2 32 Sample.page).result = 0 := by
  decide

/-- C9, as stated, fails.  With the semaphore initialised to 1 and task 1 holding the
session, `device_open` by task 2 does not return `-1`: it has not returned at all, task 2
sleeps on the wait list. -/
theorem second_open_does_not_fail :
    ¬ ((device_open (device_open (sema_init 1) 1).1 2).2 = some (-1)) ∧
      device_open (device_open (sema_init 1) 1).1 2 = (⟨0, [2]⟩, none) := by
  decide

/-- C9, amended.  With the semaphore initialised to 1, the first `device_open` returns 0
and holds the session.  A second `device_open` while it is held does not return: the
caller sleeps on the semaphore.  If a signal interrupts it, its `device_open` returns
`-1`; if the holder calls `device_close`, the sleeper is handed the session and its
`device_open` returns 0.  After a `device_close` with nobody waiting, a subsequent
`device_open` returns 0 at once. -/
theorem session_guard_sleeps (t1 t2 : Nat) :
    device_open (sema_init 1) t1 = (⟨0, []⟩, some 0) ∧
      device_open ⟨0, []⟩ t2 = (⟨0, [t2]⟩, none) ∧
      device_open_interrupted ⟨0, [t2]⟩ t2 = (⟨0, []⟩, some (-1)) ∧
      device_close ⟨0, [t2]⟩ = (⟨0, []⟩, some t2, 0) ∧
      device_open_after 0 = 0 ∧
      device_close ⟨0, []⟩ = (sema_init 1, none, 0) ∧
      device_open (device_close (device_open (sema_init 1) t1).1).1 t2 = (⟨0, []⟩, some 0) := by
  simp [device_open, down_interruptible, sema_init, device_open_interrupted, interrupt,
    device_close, up, device_open_after]

end MbedDriver

namespace LedCube

open MbedDriver

/-- C3, as stated, fails.  `device_write` of the all-zero 20-byte pattern hands
`[0x01, 0x00, 0, ..., 0]` to `i2c_master_send`; delivered to the freshly started controller
as a successfully read frame and followed by the rest of the refresh cycle, it leaves the
hardcoded test pattern active, not the all-zero frame. -/
theorem host_write_not_decoded :
    (device_write Sample.freshDriver Sample.zeroPattern 20 34).bus
        = [.send (0x01 :: 0x00 :: List.replicate 32 0)] ∧
      (runLoop (initState []) (deliver (0x01 :: 0x00 :: List.replicate 32 0) :: Sample.idle4)).active
        = testPattern ∧
      (runLoop (initState []) (deliver (0x01 :: 0x00 :: List.replicate 32 0) :: Sample.idle4)).active
        ≠ decodeFrame Sample.zeroPattern := by
  decide

/-- C3, amended.  For every 20-byte pattern `X` and whatever the transfer buffer held,
`device_write(X, 20)` hands `[0x01, 0x00, b0..b19, 0, ..., 0]` to `i2c_master_send`.
Delivered to the controller as a successfully read `WriteAddressed` frame, this message is
not a write-cube command: its command byte is `0x01`, not `WRITE_CUBE`, so the dispatch
leaves both cube buffers and `switchbuffers` as they were, and, with no buffer switch
pending and no `WRITE_CUBE` frame in the iterations that follow, the active frame stays the
frame that was active before. -/
theorem host_write_is_unknown_command (s : State) (d : Driver) (X : List Nat) (sendRet : Int)
    (hd : d.buffer.length = MBED_BUFFER_SIZE) (hX : X.length = DATA_BYTES) :
    ∃ msg : List Nat, (device_write d X 20 sendRet).bus = [.send msg] ∧
      msg = 0x01 :: 0x00 :: (X ++ List.replicate 12 0) ∧
      (deliver msg).isWriteCube = false ∧
      (dispatch s (deliver msg)).cubebuffer_0 = s.cubebuffer_0 ∧
      (dispatch s (deliver msg)).cubebuffer_1 = s.cubebuffer_1 ∧
      (dispatch s (deliver msg)).switchbuffers = s.switchbuffers ∧
      (s.switchbuffers = false → ∀ es : List I2CEvent, (∀ e ∈ es, e.isWriteCube = false) →
        (runLoop s (deliver msg :: es)).active = s.active) := by
  simp only [DATA_BYTES] at hX
  have hcopy : (copy_from_user (d.buffer.drop 2) X 20).2 = 0 := by
    simp [copy_from_user, hX]
  have hsent := device_write_sent d X 20 sendRet hd (by decide) hcopy
  have htake : X.take 20 = X := by rw [← hX, List.take_length]
  rw [htake] at hsent
  have hno : (deliver (0x01 :: 0x00 :: (X ++ List.replicate 12 0))).isWriteCube = false := by
    simp [deliver, I2CEvent.isWriteCube, I2C_BUFFER_SIZE, WRITE_CUBE]
  obtain ⟨d0, d1, dsw⟩ := dispatch_not_writeCube s _ hno
  refine ⟨0x01 :: 0x00 :: (X ++ List.replicate 12 0), hsent, rfl, hno, d0, d1, dsw, ?_⟩
  intro hsw es hes
  obtain ⟨hc, hm⟩ := runLoop_quiet (deliver (0x01 :: 0x00 :: (X ++ List.replicate 12 0)) :: es) s
    hsw (by
      intro e he
      rcases List.mem_cons.1 he with h | h
      · rw [h]; exact hno
      · exact hes e h)
  rw [State.active, hc, hm, State.active]

/-! ## Instances -/

/-- Instance of C1: the controller at level 2 receives the pattern 1..20 and then idles. -/
theorem writeCube_active_after_cycle_witness :
    (runLoop Sample.atLevel2
        (.WriteAddressed 0 (WRITE_CUBE :: Sample.countPattern) :: Sample.idle4)).active
      = decodeFrame Sample.countPattern :=
  writeCube_active_after_cycle Sample.atLevel2
    (Reachable.step _ _ (Reachable.step _ _ (Reachable.init []) trivial) trivial)
    Sample.countPattern (by decide) (by decide) Sample.idle4 (by decide)
    (by intro e he; simp [Sample.idle4] at he; subst he; trivial) (by decide)

/-- Instance of C2: from the start state, with `WRITE_CUBE` frames arriving at levels 0
and 2 of the cycle. -/
theorem active_frame_not_torn_witness :
    ((step (initState []) (.WriteAddressed 0 (WRITE_CUBE :: Sample.countPattern))).currentbuffer
        = (initState []).currentbuffer ∧
      (step (initState []) (.WriteAddressed 0 (WRITE_CUBE :: Sample.countPattern))).mem
          (step (initState []) (.WriteAddressed 0 (WRITE_CUBE :: Sample.countPattern))).currentbuffer
        = (initState []).mem (initState []).currentbuffer ∧
      (step (initState []) (.WriteAddressed 0 (WRITE_CUBE :: Sample.countPattern))).active
        = (initState []).active) ∧
    (emitted (initState [])
        [.WriteAddressed 0 (WRITE_CUBE :: Sample.countPattern), .NoData,
          .WriteAddressed 0 (WRITE_CUBE :: Sample.zeroPattern), .NoData, .NoData]
        = (initState []).active ∧
      (emitted (initState [])
        [.WriteAddressed 0 (WRITE_CUBE :: Sample.countPattern), .NoData,
          .WriteAddressed 0 (WRITE_CUBE :: Sample.zeroPattern), .NoData, .NoData]).map outputData
        = (initState []).active.map outputData) :=
  ⟨(active_frame_not_torn (initState []) (Reachable.init [])
      (.WriteAddressed 0 (WRITE_CUBE :: Sample.countPattern))).1 (by decide),
    (active_frame_not_torn (initState []) (Reachable.init [])
      (.WriteAddressed 0 (WRITE_CUBE :: Sample.countPattern))).2 rfl .NoData
      (.WriteAddressed 0 (WRITE_CUBE :: Sample.zeroPattern)) .NoData .NoData⟩

/-- Instance of C10: a successfully read frame with command byte `0x07`. -/
theorem dispatch_other_event_keeps_frames_witness :
    (I2CEvent.WriteAddressed 0 (0x07 :: Sample.countPattern)).isWriteCube = false ∧
      (dispatch Sample.atLevel2 (.WriteAddressed 0 (0x07 :: Sample.countPattern))).active
        = Sample.atLevel2.active ∧
      (dispatch Sample.atLevel2 (.WriteAddressed 0 (0x07 :: Sample.countPattern))).staging
        = Sample.atLevel2.staging ∧
      (dispatch Sample.atLevel2 (.WriteAddressed 0 (0x07 :: Sample.countPattern))).switchbuffers
        = Sample.atLevel2.switchbuffers :=
  have h := dispatch_other_event_keeps_frames Sample.atLevel2
    (.WriteAddressed 0 (0x07 :: Sample.countPattern)) (by decide)
  ⟨by decide, h.2.2.2.2.1, h.2.2.2.2.2.1, h.2.2.2.2.2.2⟩

/-- Instance of the amended C3: the pattern 1..20 written through a used transfer buffer. -/
theorem host_write_is_unknown_command_witness :
    ∃ msg : List Nat,
      (device_write Sample.usedDriver Sample.countPattern 20 34).bus = [.send msg] ∧
      (deliver msg).isWriteCube = false ∧
      (runLoop (initState []) (deliver msg :: Sample.idle4)).active = (initState []).active :=
  have ⟨msg, h1, _, h3, _, _, _, h7⟩ := host_write_is_unknown_command (initState [])
    Sample.usedDriver Sample.countPattern 34 (by decide) (by decide)
  ⟨msg, h1, h3, h7 rfl Sample.idle4 (by decide)⟩

end LedCube

namespace MbedDriver

/-- Instance of C4: 20 bytes written through a transfer buffer full of `0xAA`. -/
theorem device_write_transfer_buffer_witness :
    ∃ buf : List Nat,
      (device_write Sample.usedDriver Sample.countPattern 20 34).bus = [.send buf] ∧
      buf.length = 34 ∧ buf[0]? = some 0x01 ∧ buf[1]? = some 0x00 ∧
      (∀ i, i < 20 → buf[2 + i]? = Sample.countPattern[i]? ∧ i < Sample.countPattern.length) ∧
      (∀ i, 2 + 20 ≤ i → i < 34 → buf[i]? = some 0) :=
  device_write_transfer_buffer Sample.usedDriver Sample.countPattern 20 34
    (by decide) (by decide) (by decide)

/-- Instance of C7: a write of 33 bytes. -/
theorem device_write_too_big_witness :
    (device_write Sample.usedDriver (List.replicate 33 1) 33 34).result = -1 ∧
      (device_write Sample.usedDriver (List.replicate 33 1) 33 34).bus = [] ∧
      (device_write Sample.usedDriver (List.replicate 33 1) 33 34).driver = Sample.usedDriver ∧
      (device_write Sample.usedDriver (List.replicate 33 1) 33 34).driver.buffer
        = Sample.usedDriver.buffer :=
  device_write_too_big Sample.usedDriver (List.replicate 33 1) 33 34 (by decide)

/-- Instance of C8: a send that accepts 1 byte, and a receive that returns 31 bytes. -/
theorem device_read_short_transfer_witness :
    ((device_read Sample.usedDriver Sample.userPage 32 1 32 Sample.page).result = -1 ∧
      (device_read Sample.usedDriver Sample.userPage 32 1 32 Sample.page).user = Sample.userPage ∧
      ∀ c, BusOp.recv c ∉ (device_read Sample.usedDriver Sample.userPage 32 1 32 Sample.page).bus) ∧
    ((device_read Sample.usedDriver Sample.userPage 32 2 31 (Sample.page.take 31)).result = -1 ∧
      (device_read Sample.usedDriver Sample.userPage 32 2 31 (Sample.page.take 31)).user
        = Sample.userPage) :=
  have h1 := device_read_short_transfer Sample.usedDriver Sample.userPage 32 1 32 Sample.page
    (by decide) (Or.inl (by decide))
  have h2 := device_read_short_transfer Sample.usedDriver Sample.userPage 32 2 31
    (Sample.page.take 31) (by decide) (Or.inr (by decide))
  ⟨⟨h1.1, h1.2.1, h1.2.2 (by decide)⟩, h2.1, h2.2.1⟩

end MbedDriver
